import Mathlib

/-!
# Verification of the OpenSanctions Entity Checker

A shallow embedding of `Project-Posieden.py`: the string-normalisation
helpers used by `clean_vessel_data`, the JSON payload construction and
error handling of `check_sanctions_single`, the per-row interpretation of
API responses in the vessel/person/company check handlers, and the
add-vessel form handler.  Theorems at the end settle the specification
claims about this code.
-/

set_option linter.unusedVariables false

namespace Posiden

/-! ## Python string primitives

Models of the Python `str` methods the application uses.  They are stated
for the strings the pipeline actually feeds them (after ASCII folding the
cleaning pipeline only applies `isnumeric` to pure-ASCII strings). -/

/-- Characters removed by Python `str.strip()` (ASCII whitespace; the
Unicode-only space characters are never produced by the inputs modelled
here). -/
def isPySpace (c : Char) : Bool :=
  c = ' ' || c = '\t' || c = '\n' || c = '\r' || c = '\x0b' || c = '\x0c'

/-- Python `str.strip()`: remove leading and trailing whitespace. -/
def pyStrip (s : String) : String :=
  ⟨((s.data.dropWhile isPySpace).reverse.dropWhile isPySpace).reverse⟩

/-- Unicode NFKD decomposition of a single character.  ASCII characters
are NFKD-invariant; of the non-ASCII characters only the decompositions
needed here are tabulated, the rest are kept as themselves (the
application immediately discards every non-ASCII code point, so only
decompositions containing ASCII parts are observable). -/
def nfkdChar (c : Char) : List Char :=
  if c.toNat < 128 then [c]
  else if c = 'é' then ['e', '́']
  else if c = 'Å' then ['A', '̊']
  else [c]

/-- `unicodedata.normalize('NFKD', x).encode('ascii', 'ignore').decode('utf-8')`:
NFKD-decompose, then drop every non-ASCII code point. -/
def asciiFold (s : String) : String :=
  ⟨((s.data.map nfkdChar).flatten).filter (fun c => c.toNat < 128)⟩

/-- An ASCII decimal digit (code points 48-57). -/
def isAsciiDigit (c : Char) : Bool :=
  48 ≤ c.toNat && c.toNat ≤ 57

/-- Python `str.isnumeric()` restricted to ASCII strings: nonempty and
all decimal digits.  The cleaning pipeline applies it only after
`asciiFold`, whose output is pure ASCII. -/
def pyIsnumeric (s : String) : Bool :=
  !s.data.isEmpty && s.data.all isAsciiDigit

/-- Left-padding with `'0'`s on character lists (a leading sign stays in
front of the padding, as in Python). -/
def zfillData (l : List Char) (k : Nat) : List Char :=
  match l with
  | c :: rest =>
      if c = '+' || c = '-' then c :: (List.replicate k '0' ++ rest)
      else List.replicate k '0' ++ l
  | [] => List.replicate k '0'

/-- Python `str.zfill(w)`: left-pad with `'0'` to width `w`; a string of
length `≥ w` is returned unchanged. -/
def pyZfill (s : String) (w : Nat) : String :=
  if w ≤ s.length then s else ⟨zfillData s.data (w - s.length)⟩

/-- The full per-cell normalisation applied to the `name` and `imoNumber`
columns: `astype(str).str.strip()` followed by the ASCII fold. -/
def cleanStr (s : String) : String :=
  asciiFold (pyStrip s)

/-- `'detention' in topic` for Python strings: substring containment,
on character lists. -/
def charsHavePre : List Char → List Char → Bool
  | _, [] => true
  | [], _ :: _ => false
  | c :: cs, d :: ds => c = d && charsHavePre cs ds

def charsContain : List Char → List Char → Bool
  | l, p =>
    charsHavePre l p ||
      (match l with
       | [] => false
       | _ :: cs => charsContain cs p)

def strContains (s pat : String) : Bool :=
  charsContain s.data pat.data

/-! ## JSON values and Python entities

`check_sanctions_single` receives an arbitrary Python object as `entity`
and builds a JSON payload from it; JSON values are modelled concretely,
Python dictionaries as association lists with unique keys looked up by
first match. -/

inductive JValue where
  | null
  | bool (b : Bool)
  | num (q : ℚ)
  | str (s : String)
  | arr (xs : List JValue)
  | obj (kvs : List (String × JValue))
deriving Inhabited

/-- `d.get(k)` on a Python dict modelled as an association list. -/
def dictGet (kvs : List (String × JValue)) (k : String) : Option JValue :=
  (kvs.find? (fun p => p.1 = k)).map Prod.snd

/-- A Python value passed as the `entity` argument: either a dict or
some non-dict object (carrying only its display text). -/
inductive PyVal where
  | dict (kvs : List (String × JValue))
  | other (text : String)

/-! ## check_sanctions_single

The network is an explicit parameter: the outcome the single
`requests.post` call would have.  `raise_for_status` turns a 4xx/5xx
status into an `HTTPError`; connection-level failures are a
`RequestException`.  The success body is kept abstract (`α`), so the same
definition serves both the payload claims (any body) and the vessel-check
loop (a typed response body). -/

inductive HttpOutcome (α : Type) where
  | success (body : α)
  | httpError (status : Nat) (msg : String)
  | requestError (msg : String)

/-- Observable behaviour of one call to `check_sanctions_single`:
how many POST requests were issued, the JSON payload and headers of the
request (if one was issued), the `st.error` messages shown, and the
returned value (`None` is `none`). -/
structure CallTrace (α : Type) where
  posts : Nat
  payload : Option JValue
  headers : List (String × String)
  errors : List String
  result : Option α

/-- The request headers built at the top of `check_sanctions_single`. -/
def sanctionsHeaders (api_key : String) : List (String × String) :=
  [("Authorization", "ApiKey " ++ api_key),
   ("Accept", "application/json"),
   ("Content-Type", "application/json")]

/-- The JSON payload `{"queries": {"entity_0": {"schema": ..., "properties": ...}}}`
built from a dict entity, with the defaults of `entity.get`. -/
def sanctionsPayload (kvs : List (String × JValue)) : JValue :=
  .obj [("queries", .obj [("entity_0", .obj
    [("schema", (dictGet kvs "schema").getD (.str "Thing")),
     ("properties", (dictGet kvs "properties").getD (.obj []))])])]

/-- `entity.get('name', 'N/A')` rendered into an error message. -/
def entityNameText (kvs : List (String × JValue)) : String :=
  match dictGet kvs "name" with
  | some (.str s) => s
  | some _ => "?"
  | none => "N/A"

def check_sanctions_single (api_key : String) (entity : PyVal)
    (net : HttpOutcome α) : CallTrace α :=
  let headers := sanctionsHeaders api_key
  match entity with
  | .other _ =>
      -- `if not isinstance(entity, dict): return None` — before any request
      { posts := 0, payload := none, headers := headers, errors := [], result := none }
  | .dict kvs =>
      let payload := sanctionsPayload kvs
      match net with
      | .success body =>
          { posts := 1, payload := some payload, headers := headers,
            errors := [], result := some body }
      | .httpError status msg =>
          { posts := 1, payload := some payload, headers := headers,
            errors :=
              ("HTTP Error for entity " ++ entityNameText kvs ++ ": " ++ msg) ::
                (if status = 401 then
                  ["Invalid OpenSanctions API key. Please check your key and try again."]
                 else if status = 400 then
                  ["Bad Request for entity " ++ entityNameText kvs ++
                    ": The API rejected the data. " ++
                    "The payload that was sent is displayed below for debugging."]
                 else []),
            result := none }
      | .requestError msg =>
          { posts := 1, payload := some payload, headers := headers,
            errors := ["Request Error for entity " ++ entityNameText kvs ++ ": " ++ msg],
            result := none }

/-- The failure outcomes of the HTTP call (4xx/5xx status, or a
network-level request error). -/
def HttpOutcome.isFailure : HttpOutcome α → Bool
  | .success _ => false
  | .httpError _ _ => true
  | .requestError _ => true

/-! ## The api_query dictionaries built by the three check handlers -/

/-- The `api_query` dict built for each vessel row in the
`check_vessels_button` loop. -/
def vessel_api_query (imo : String) : PyVal :=
  .dict [("schema", .str "Vessel"),
         ("properties", .obj [("imoNumber", .arr [.str imo])])]

/-- The `api_query` dict built by the `check_person_button` handler. -/
def person_api_query (name : String) : PyVal :=
  .dict [("schema", .str "Person"),
         ("properties", .obj [("name", .arr [.str name])])]

/-- The `api_query` dict built by the `check_company_button` handler. -/
def company_api_query (company_name : String) : PyVal :=
  .dict [("schema", .str "Company"),
         ("properties", .obj [("name", .arr [.str company_name])])]

/-- The `properties` object of a query dict, for inspecting which
identifier fields a handler sends. -/
def queryProperties (q : PyVal) : List (String × JValue) :=
  match q with
  | .dict kvs =>
      match dictGet kvs "properties" with
      | some (.obj ps) => ps
      | _ => []
  | .other _ => []

/-! ## Typed API responses

The handlers consume the response JSON through the schema the API
documents: `responses.entity_0.results[]`, each result carrying `match`
(bool), `score` (float, modelled as `ℚ`), `datasets` (list of strings),
`id` (string), and a `properties` object whose values are lists of
strings (only `topics` is ever read).  A missing key is `none`
(`dict.get` default). -/

structure ApiResult where
  matchField : Option Bool
  score : Option ℚ
  datasets : Option (List String)
  resultId : Option String
  properties : Option (List (String × List String))
deriving DecidableEq, Repr

structure ApiEntityResponse where
  results : Option (List ApiResult)
deriving DecidableEq, Repr

structure ApiResponse where
  responses : List (String × ApiEntityResponse)
deriving DecidableEq, Repr

/-- `d.get(k)` on the `responses` dict. -/
def respGet (rs : List (String × ApiEntityResponse)) (k : String) :
    Option ApiEntityResponse :=
  (rs.find? (fun p => p.1 = k)).map Prod.snd

/-- The shared sanction test: `best_match.get("match") is True and
best_match.get("score", 0) > 0.7`. -/
def matchIsSanctioned (bm : ApiResult) : Bool :=
  decide (bm.matchField = some true) && decide ((7 : ℚ)/10 < bm.score.getD 0)

/-- `"topics" in best_match.get('properties', {}) and
any('detention' in topic for topic in best_match['properties']['topics'])`. -/
def matchIsDetained (bm : ApiResult) : Bool :=
  match (bm.properties.getD []).find? (fun p => p.1 = "topics") with
  | some (_, topics) => topics.any (fun t => strContains t "detention")
  | none => false

/-- The row of the results table built for one vessel in the
`check_vessels_button` loop (`match_score` is the displayed score before
decimal formatting; `none` renders as `"N/A"`). -/
structure VesselRowOut where
  is_sanctioned : Bool
  is_detained : Bool
  sanction_lists : String
  match_score : Option ℚ
  sanctioned_id : String
deriving DecidableEq, Repr

/-- The default field values set before inspecting the response. -/
def vesselRowInit : VesselRowOut :=
  { is_sanctioned := false, is_detained := false, sanction_lists := "None",
    match_score := none, sanctioned_id := "N/A" }

/-- Interpretation of one `check_sanctions_single` return value inside
the `check_vessels_button` loop (source lines 276-309). -/
def vessel_row_result (response_data : Option ApiResponse) : VesselRowOut :=
  match response_data with
  | none => vesselRowInit
  | some rd =>
      match respGet rd.responses "entity_0" with
      | none => vesselRowInit
      | some response_for_entity =>
          match response_for_entity.results with
          | none => vesselRowInit
          | some [] => vesselRowInit
          | some (best_match :: _) =>
              let ms := some (best_match.score.getD 0)
              if matchIsSanctioned best_match then
                { is_sanctioned := true, is_detained := false,
                  sanction_lists :=
                    String.intercalate ", " (best_match.datasets.getD ["Unknown"]),
                  match_score := ms,
                  sanctioned_id := best_match.resultId.getD "N/A" }
              else if matchIsDetained best_match then
                { is_sanctioned := false, is_detained := true,
                  sanction_lists := "Detention",
                  match_score := ms,
                  sanctioned_id := best_match.resultId.getD "N/A" }
              else
                { vesselRowInit with match_score := ms }

/-- What the person / company check handlers display after a successful
API call: either the "Match Found!" panel (with the joined sanction
lists) or the "No match found" message. -/
inductive SingleCheckOut where
  | matchFound (sanction_lists : String)
  | noMatch
deriving DecidableEq, Repr

/-- The display logic shared by `check_person_button` and
`check_company_button` (source lines 358-386 and 403-430): `none` when
`check_sanctions_single` returned `None` (nothing is displayed). -/
def single_check_result (response_data : Option ApiResponse) :
    Option SingleCheckOut :=
  match response_data with
  | none => none
  | some rd =>
      match respGet rd.responses "entity_0" with
      | none => some .noMatch
      | some resp =>
          match resp.results with
          | none => some .noMatch
          | some [] => some .noMatch
          | some (best_match :: _) =>
              if matchIsSanctioned best_match then
                some (.matchFound
                  (String.intercalate ", " (best_match.datasets.getD ["N/A"])))
              else
                some .noMatch

/-! ## DataFrames and clean_vessel_data

A DataFrame is a list of column labels (duplicates possible — pandas
allows them, and `rename` can create them) and a list of rows; a cell is
`none` for a pandas `NaN`.  Cells are addressed positionally through the
first occurrence of a label. -/

structure DF where
  cols : List String
  rows : List (List (Option String))
deriving DecidableEq, Repr

/-- pandas `df.empty`: one of the axes has length zero. -/
def DF.isEmpty (df : DF) : Bool :=
  df.rows.isEmpty || df.cols.isEmpty

/-- Index of the first occurrence of a label (length if absent). -/
def idxOf (c : String) : List String → Nat
  | [] => 0
  | d :: ds => if d = c then 0 else idxOf c ds + 1

/-- The cell of a row at position `i` (`none` when out of range, which
the pipeline never relies on). -/
def getO (r : List (Option String)) (i : Nat) : Option String :=
  (r.get? i).getD none

/-- Rewrite the cell at position `i` through `f` (applied under the
option: the pipeline only maps columns whose `NaN`s were dropped). -/
def mapCell (i : Nat) (f : String → String) :
    List (Option String) → List (Option String)
  | [] => []
  | v :: vs =>
      match i with
      | 0 => v.map f :: vs
      | j + 1 => v :: mapCell j f vs

/-- `df.rename(columns={'imo': 'imoNumber'})`, applied when `'imo'` is
present: every `imo` label becomes `imoNumber` (silently creating a
duplicate label when `imoNumber` already exists). -/
def renameImo (df : DF) : DF :=
  if "imo" ∈ df.cols then
    { df with cols := df.cols.map (fun c => if c = "imo" then "imoNumber" else c) }
  else df

/-- `df[col] = ''` for a missing expected column: append the label and
fill every row with the empty string. -/
def addMissing (df : DF) (c : String) : DF :=
  if c ∈ df.cols then df
  else { cols := df.cols ++ [c], rows := df.rows.map (· ++ [some ""]) }

/-- `df.dropna(subset=['name', 'imoNumber'])`. -/
def dropnaNameImo (df : DF) : DF :=
  { df with rows := df.rows.filter (fun r =>
      (getO r (idxOf "name" df.cols)).isSome &&
      (getO r (idxOf "imoNumber" df.cols)).isSome) }

/-- `df[col] = df[col]...` column transformation. -/
def mapCol (df : DF) (c : String) (f : String → String) : DF :=
  { df with rows := df.rows.map (mapCell (idxOf c df.cols) f) }

/-- Boolean-mask row filtering `df = df[pred(df[col])]`. -/
def filterCol (df : DF) (c : String) (p : Option String → Bool) : DF :=
  { df with rows := df.rows.filter (fun r => p (getO r (idxOf c df.cols))) }

/-- `df.drop_duplicates()`: keep the first occurrence of each full row. -/
def dedupKeepFirst {α : Type} [DecidableEq α] : List α → List α
  | [] => []
  | x :: xs => x :: (dedupKeepFirst xs).filter (fun y => y ≠ x)

/-- Number of occurrences of a column label. -/
def countLabel (c : String) : List String → Nat
  | [] => 0
  | d :: ds => (if d = c then 1 else 0) + countLabel c ds

/-- Both worked-on labels occur exactly once.  When `rename` has
duplicated a label, `df['imoNumber']` returns a DataFrame instead of a
Series and the `.str` accessor of the strip step raises
`AttributeError`; the check is hoisted before `dropna`, which changes no
observable outcome (the call errors either way). -/
def uniqueLabels (df : DF) : Bool :=
  countLabel "name" df.cols = 1 && countLabel "imoNumber" df.cols = 1

/-- Predicate of the `str.isnumeric()` row mask. -/
def numericMask (v : Option String) : Bool :=
  (v.map pyIsnumeric).getD false

/-- Predicate of the `df[col] != ''` row masks (a `NaN` compares
unequal, as in pandas). -/
def nonemptyMask (v : Option String) : Bool :=
  decide (v ≠ some "")

/-- The per-row body of `clean_vessel_data` once both labels are known
to be unique: strip + ASCII fold on `name` and `imoNumber`, keep numeric
`imoNumber`s, zero-pad to 7, drop empty names/IMOs, drop duplicate
rows. -/
def cleanPipeline (d : DF) : DF :=
  let df3 := dropnaNameImo d
  let df4 := mapCol (mapCol df3 "name" cleanStr) "imoNumber" cleanStr
  let df5 := filterCol df4 "imoNumber" numericMask
  let df6 := mapCol df5 "imoNumber" (fun x => pyZfill x 7)
  let df7 := filterCol df6 "name" nonemptyMask
  let df8 := filterCol df7 "imoNumber" nonemptyMask
  { df8 with rows := dedupKeepFirst df8.rows }

/-- `clean_vessel_data` (source lines 88-121).  Errors model the
exception raised on duplicated `name`/`imoNumber` labels; every other
input returns normally. -/
def clean_vessel_data (df : DF) : Except String DF :=
  if df.isEmpty then .ok ⟨["name", "imo"], []⟩
  else
    let df2 := addMissing (addMissing (renameImo df) "name") "imoNumber"
    if uniqueLabels df2 then .ok (cleanPipeline df2)
    else .error "duplicated column label"

/-! ## The add-vessel form handler -/

/-- A row of the stored vessel list. -/
structure Vessel where
  name : String
  imoNumber : String
deriving DecidableEq, Repr

/-- `drop_duplicates(subset='imoNumber', keep='last')`: a row is kept
exactly when no later row has the same `imoNumber`, in original order. -/
def keepLastByImo : List Vessel → List Vessel
  | [] => []
  | v :: rest =>
      if rest.any (fun w => w.imoNumber = v.imoNumber) then keepLastByImo rest
      else v :: keepLastByImo rest

/-- Outcome of submitting the add-vessel form (source lines 200-212). -/
inductive AddVesselOut where
  | errMissing
  | errNonNumeric
  | added (store : List Vessel)
deriving DecidableEq, Repr

def add_vessel (store : List Vessel) (new_name new_imo_number : String) :
    AddVesselOut :=
  if new_name = "" || new_imo_number = "" then .errMissing
  else
    let formatted_imo := pyZfill (pyStrip new_imo_number) 7
    if !pyIsnumeric formatted_imo then .errNonNumeric
    else .added (keepLastByImo (store ++ [⟨new_name, formatted_imo⟩]))

/-! ## Lemmas about the string primitives -/

theorem nfkdChar_ascii {c : Char} (h : c.toNat < 128) : nfkdChar c = [c] := by
  simp [nfkdChar, h]

theorem flatten_map_singleton {α : Type} (l : List α) :
    (l.map (fun a => [a])).flatten = l := by
  induction l with
  | nil => rfl
  | cons a t ih => simp [ih]

theorem asciiFold_chars_ascii {s : String} :
    ∀ c ∈ (asciiFold s).data, c.toNat < 128 := by
  intro c hc
  simp only [asciiFold] at hc
  simpa using (List.mem_filter.mp hc).2

theorem asciiFold_of_ascii {s : String} (h : ∀ c ∈ s.data, c.toNat < 128) :
    asciiFold s = s := by
  have h1 : s.data.map nfkdChar = s.data.map (fun c => [c]) :=
    List.map_congr_left (fun c hc => nfkdChar_ascii (h c hc))
  have h2 : ((s.data.map nfkdChar).flatten).filter (fun c => c.toNat < 128) = s.data := by
    rw [h1, flatten_map_singleton]
    exact List.filter_eq_self.mpr (fun c hc => by simpa using h c hc)
  show (⟨((s.data.map nfkdChar).flatten).filter (fun c => c.toNat < 128)⟩ : String) = s
  rw [h2]

theorem dropWhile_eq_self_of_not {α : Type} (p : α → Bool) {l : List α}
    (h : ∀ c ∈ l, p c = false) : l.dropWhile p = l := by
  cases l with
  | nil => rfl
  | cons a t => simp [List.dropWhile_cons, h a (List.mem_cons_self a t)]

theorem pyStrip_of_no_space {s : String} (h : ∀ c ∈ s.data, isPySpace c = false) :
    pyStrip s = s := by
  show (⟨((s.data.dropWhile isPySpace).reverse.dropWhile isPySpace).reverse⟩ : String) = s
  rw [dropWhile_eq_self_of_not _ h,
      dropWhile_eq_self_of_not _ (fun c hc => h c (List.mem_reverse.mp hc)),
      List.reverse_reverse]

theorem isAsciiDigit_not_space {c : Char} (h : isAsciiDigit c = true) :
    isPySpace c = false := by
  have h48 : 48 ≤ c.toNat ∧ c.toNat ≤ 57 := by simpa [isAsciiDigit] using h
  cases hsp : isPySpace c with
  | false => rfl
  | true =>
      exfalso
      simp only [isPySpace, Bool.or_eq_true, decide_eq_true_eq] at hsp
      rcases hsp with ((((h1 | h1) | h1) | h1) | h1) | h1 <;> subst h1 <;>
        exact absurd h48.1 (by decide)

theorem isAsciiDigit_ascii {c : Char} (h : isAsciiDigit c = true) : c.toNat < 128 := by
  have h2 : 48 ≤ c.toNat ∧ c.toNat ≤ 57 := by simpa [isAsciiDigit] using h
  omega

theorem isAsciiDigit_not_sign {c : Char} (h : isAsciiDigit c = true) :
    (c = '+' || c = '-') = false := by
  have h2 : 48 ≤ c.toNat ∧ c.toNat ≤ 57 := by simpa [isAsciiDigit] using h
  cases hc : (c = '+' || c = '-') with
  | false => rfl
  | true =>
      exfalso
      simp only [Bool.or_eq_true, decide_eq_true_eq] at hc
      rcases hc with h1 | h1 <;> subst h1 <;> exact absurd h2.1 (by decide)

theorem pyIsnumeric_iff {s : String} :
    pyIsnumeric s = true ↔ s.data ≠ [] ∧ ∀ c ∈ s.data, isAsciiDigit c = true := by
  simp [pyIsnumeric, List.all_eq_true]

theorem pyIsnumeric_ne_empty {s : String} (h : pyIsnumeric s = true) : s ≠ "" := by
  intro e
  subst e
  exact absurd h (by decide)

theorem pyZfill_of_le {s : String} {w : Nat} (h : w ≤ s.length) : pyZfill s w = s := by
  simp [pyZfill, h]

theorem zfillData_length (l : List Char) (k : Nat) :
    (zfillData l k).length = k + l.length := by
  cases l with
  | nil => simp [zfillData]
  | cons c rest =>
      by_cases hc : c = '+' || c = '-' <;> simp [zfillData, hc] <;> omega

theorem zfillData_digits {l : List Char} (k : Nat)
    (h : ∀ c ∈ l, isAsciiDigit c = true) :
    ∀ c ∈ zfillData l k, isAsciiDigit c = true := by
  intro c hc
  cases l with
  | nil =>
      rw [List.eq_of_mem_replicate hc]
      decide
  | cons c0 rest =>
      simp only [zfillData, isAsciiDigit_not_sign (h c0 (List.mem_cons_self c0 rest)),
        Bool.false_eq_true, if_false] at hc
      rcases List.mem_append.mp hc with h1 | h1
      · rw [List.eq_of_mem_replicate h1]; decide
      · exact h c h1

theorem pyZfill_length (s : String) (w : Nat) : w ≤ (pyZfill s w).length := by
  unfold pyZfill
  by_cases hw : w ≤ s.length
  · simpa [hw] using hw
  · rw [if_neg hw]
    show w ≤ (zfillData s.data (w - s.length)).length
    rw [zfillData_length]
    have hlen : s.length = s.data.length := rfl
    omega

theorem pyZfill_idem (s : String) (w : Nat) :
    pyZfill (pyZfill s w) w = pyZfill s w :=
  pyZfill_of_le (pyZfill_length s w)

theorem pyZfill_digits {s : String} (h : pyIsnumeric s = true) :
    ∀ c ∈ (pyZfill s 7).data, isAsciiDigit c = true := by
  rcases pyIsnumeric_iff.mp h with ⟨hne, hdig⟩
  intro c hc
  unfold pyZfill at hc
  by_cases hw : 7 ≤ s.length
  · rw [if_pos hw] at hc
    exact hdig c hc
  · rw [if_neg hw] at hc
    exact zfillData_digits _ hdig c hc

theorem pyIsnumeric_zfill {s : String} (h : pyIsnumeric s = true) :
    pyIsnumeric (pyZfill s 7) = true := by
  apply pyIsnumeric_iff.mpr
  refine ⟨?_, pyZfill_digits h⟩
  intro he
  have := pyZfill_length s 7
  rw [show (pyZfill s 7).length = (pyZfill s 7).data.length from rfl, he] at this
  simp at this

theorem cleanStr_of_digits {s : String} (h : ∀ c ∈ s.data, isAsciiDigit c = true) :
    cleanStr s = s := by
  unfold cleanStr
  rw [pyStrip_of_no_space (fun c hc => isAsciiDigit_not_space (h c hc))]
  exact asciiFold_of_ascii (fun c hc => isAsciiDigit_ascii (h c hc))

theorem cleanStr_idem_of_stripped {x : String}
    (h : pyStrip (cleanStr x) = cleanStr x) :
    cleanStr (cleanStr x) = cleanStr x := by
  show asciiFold (pyStrip (cleanStr x)) = cleanStr x
  rw [h]
  show asciiFold (asciiFold (pyStrip x)) = asciiFold (pyStrip x)
  exact asciiFold_of_ascii (fun c hc => asciiFold_chars_ascii c hc)

/-! ## Lemmas about cells, labels and the pipeline steps -/

theorem getO_nil (i : Nat) : getO [] i = none := by
  cases i <;> rfl

theorem getO_mapCell_self (f : String → String) :
    ∀ (r : List (Option String)) (i : Nat),
      getO (mapCell i f r) i = (getO r i).map f
  | [], i => by cases i <;> rfl
  | v :: vs, 0 => rfl
  | v :: vs, j + 1 => getO_mapCell_self f vs j

theorem getO_mapCell_ne (f : String → String) :
    ∀ (r : List (Option String)) {i j : Nat}, j ≠ i →
      getO (mapCell i f r) j = getO r j
  | [], i, j, _ => by cases i <;> rfl
  | v :: vs, 0, 0, h => absurd rfl h
  | v :: vs, 0, j + 1, _ => rfl
  | v :: vs, i + 1, 0, _ => rfl
  | v :: vs, i + 1, j + 1, h =>
      getO_mapCell_ne f vs (fun e => h (congrArg Nat.succ e))

theorem mapCell_eq_self (f : String → String) :
    ∀ (r : List (Option String)) (i : Nat),
      (∀ s, getO r i = some s → f s = s) → mapCell i f r = r
  | [], i, _ => by cases i <;> rfl
  | v :: vs, 0, h => by
      cases v with
      | none => rfl
      | some s => simp [mapCell, Option.map, h s rfl]
  | v :: vs, i + 1, h => by
      simp only [mapCell]
      exact congrArg (v :: ·) (mapCell_eq_self f vs i h)

theorem idxOf_get (c : String) :
    ∀ {cols : List String}, c ∈ cols → cols.get? (idxOf c cols) = some c := by
  intro cols h
  induction cols with
  | nil => exact absurd h (List.not_mem_nil c)
  | cons d ds ih =>
      by_cases hd : d = c
      · show (d :: ds).get? (if d = c then 0 else idxOf c ds + 1) = some c
        rw [if_pos hd, hd]
        rfl
      · have hm : c ∈ ds := by
          rcases List.mem_cons.mp h with h1 | h1
          · exact absurd h1.symm hd
          · exact h1
        show (d :: ds).get? (if d = c then 0 else idxOf c ds + 1) = some c
        rw [if_neg hd]
        exact ih hm

theorem idxOf_ne {cols : List String} {c1 c2 : String}
    (h1 : c1 ∈ cols) (h2 : c2 ∈ cols) (hne : c1 ≠ c2) :
    idxOf c1 cols ≠ idxOf c2 cols := by
  intro he
  have g1 := idxOf_get c1 h1
  have g2 := idxOf_get c2 h2
  rw [he, g2] at g1
  exact hne (Option.some.inj g1).symm

theorem countLabel_append (c : String) (l1 l2 : List String) :
    countLabel c (l1 ++ l2) = countLabel c l1 + countLabel c l2 := by
  induction l1 with
  | nil => simp [countLabel]
  | cons d ds ih => simp [countLabel, ih]; omega

theorem countLabel_pos_iff {c : String} {l : List String} :
    0 < countLabel c l ↔ c ∈ l := by
  induction l with
  | nil => simp [countLabel]
  | cons d ds ih =>
      by_cases hd : d = c
      · subst hd; simp [countLabel]
      · simp [countLabel, hd, ih, Ne.symm hd]

theorem countLabel_eq_zero_of_not_mem {c : String} {l : List String}
    (h : c ∉ l) : countLabel c l = 0 := by
  by_contra hne
  exact h (countLabel_pos_iff.mp (Nat.pos_of_ne_zero hne))

theorem count_map_rename (l : List String) :
    countLabel "name" (l.map (fun c => if c = "imo" then "imoNumber" else c)) =
        countLabel "name" l ∧
      countLabel "imoNumber" (l.map (fun c => if c = "imo" then "imoNumber" else c)) =
        countLabel "imoNumber" l + countLabel "imo" l ∧
      countLabel "imo" (l.map (fun c => if c = "imo" then "imoNumber" else c)) = 0 := by
  induction l with
  | nil => exact ⟨rfl, rfl, rfl⟩
  | cons d ds ih =>
      by_cases hd : d = "imo"
      · subst hd
        refine ⟨?_, ?_, ?_⟩ <;> simp [countLabel, ih.1, ih.2.1, ih.2.2] <;> omega
      · refine ⟨?_, ?_, ?_⟩ <;> simp only [List.map_cons, countLabel, if_neg hd,
          ih.1, ih.2.1, ih.2.2] <;>
          by_cases h1 : d = "name" <;> by_cases h2 : d = "imoNumber" <;>
          simp_all <;> omega

theorem renameImo_count_name (df : DF) :
    countLabel "name" (renameImo df).cols = countLabel "name" df.cols := by
  unfold renameImo
  by_cases hm : "imo" ∈ df.cols
  · rw [if_pos hm]
    exact (count_map_rename df.cols).1
  · rw [if_neg hm]

theorem renameImo_count_imoN (df : DF) :
    countLabel "imoNumber" (renameImo df).cols =
      countLabel "imoNumber" df.cols + countLabel "imo" df.cols := by
  unfold renameImo
  by_cases hm : "imo" ∈ df.cols
  · rw [if_pos hm]
    exact (count_map_rename df.cols).2.1
  · rw [if_neg hm, countLabel_eq_zero_of_not_mem hm]
    rfl

theorem renameImo_count_imo (df : DF) :
    countLabel "imo" (renameImo df).cols = 0 := by
  unfold renameImo
  by_cases hm : "imo" ∈ df.cols
  · rw [if_pos hm]
    exact (count_map_rename df.cols).2.2
  · rw [if_neg hm, countLabel_eq_zero_of_not_mem hm]

theorem addMissing_count_ne (df : DF) {c d : String} (h : d ≠ c) :
    countLabel d (addMissing df c).cols = countLabel d df.cols := by
  unfold addMissing
  by_cases hm : c ∈ df.cols
  · rw [if_pos hm]
  · rw [if_neg hm]
    show countLabel d (df.cols ++ [c]) = _
    rw [countLabel_append]
    show countLabel d df.cols + ((if c = d then 1 else 0) + countLabel d []) = _
    rw [if_neg (fun e => h e.symm)]
    rfl

theorem addMissing_count_self (df : DF) (c : String)
    (h : countLabel c df.cols ≤ 1) :
    countLabel c (addMissing df c).cols = 1 := by
  unfold addMissing
  by_cases hm : c ∈ df.cols
  · rw [if_pos hm]
    have := countLabel_pos_iff.mpr hm
    omega
  · rw [if_neg hm]
    show countLabel c (df.cols ++ [c]) = 1
    rw [countLabel_append, countLabel_eq_zero_of_not_mem hm]
    simp [countLabel]

theorem dedupKeepFirst_sub {α : Type} [DecidableEq α] :
    ∀ (l : List α), ∀ x ∈ dedupKeepFirst l, x ∈ l
  | [] => by simp [dedupKeepFirst]
  | a :: t => by
      intro x hx
      simp only [dedupKeepFirst] at hx
      rcases List.mem_cons.mp hx with h1 | h1
      · exact h1 ▸ List.mem_cons_self a t
      · exact List.mem_cons_of_mem a
          (dedupKeepFirst_sub t x (List.mem_of_mem_filter h1))

theorem dedupKeepFirst_nodup {α : Type} [DecidableEq α] :
    ∀ (l : List α), (dedupKeepFirst l).Nodup
  | [] => by simp [dedupKeepFirst]
  | a :: t => by
      simp only [dedupKeepFirst]
      refine List.nodup_cons.mpr ⟨?_, List.Nodup.filter _ (dedupKeepFirst_nodup t)⟩
      intro hmem
      rcases List.mem_filter.mp hmem with ⟨_, h2⟩
      simp at h2

theorem dedupKeepFirst_eq_self {α : Type} [DecidableEq α] :
    ∀ {l : List α}, l.Nodup → dedupKeepFirst l = l
  | [], _ => rfl
  | a :: t, h => by
      rcases List.nodup_cons.mp h with ⟨hna, hnt⟩
      simp only [dedupKeepFirst]
      rw [dedupKeepFirst_eq_self hnt,
        List.filter_eq_self.mpr (fun y hy => by
          simp only [ne_eq, decide_eq_true_eq]
          intro e
          exact hna (e ▸ hy))]

theorem keepLastByImo_sub : ∀ (l : List Vessel), ∀ v ∈ keepLastByImo l, v ∈ l := by
  intro l
  induction l with
  | nil => simp [keepLastByImo]
  | cons w ws ih =>
      intro v hv
      rw [keepLastByImo] at hv
      by_cases hc : ws.any (fun u => u.imoNumber = w.imoNumber)
      · rw [if_pos hc] at hv
        exact List.mem_cons_of_mem w (ih v hv)
      · rw [if_neg hc] at hv
        rcases List.mem_cons.mp hv with h1 | h1
        · exact h1 ▸ List.mem_cons_self w ws
        · exact List.mem_cons_of_mem w (ih v h1)

theorem keepLastByImo_imo_nodup :
    ∀ (l : List Vessel), ((keepLastByImo l).map Vessel.imoNumber).Nodup := by
  intro l
  induction l with
  | nil => simp [keepLastByImo]
  | cons w ws ih =>
      rw [keepLastByImo]
      by_cases hc : ws.any (fun u => u.imoNumber = w.imoNumber)
      · rw [if_pos hc]
        exact ih
      · rw [if_neg hc]
        rw [List.map_cons]
        refine List.nodup_cons.mpr ⟨?_, ih⟩
        intro hmem
        rcases List.mem_map.mp hmem with ⟨u, hu, he⟩
        have hu2 := keepLastByImo_sub ws u hu
        exact hc (List.any_eq_true.mpr ⟨u, hu2, by simp [he]⟩)

theorem keepLastByImo_last_mem (v : Vessel) :
    ∀ (l : List Vessel), v ∈ keepLastByImo (l ++ [v]) := by
  intro l
  induction l with
  | nil => simp [keepLastByImo]
  | cons w ws ih =>
      show v ∈ keepLastByImo (w :: (ws ++ [v]))
      rw [keepLastByImo]
      by_cases hc : (ws ++ [v]).any (fun u => u.imoNumber = w.imoNumber)
      · rw [if_pos hc]
        exact ih
      · rw [if_neg hc]
        exact List.mem_cons_of_mem w ih

/-! ## Membership through the pipeline steps -/

theorem mem_filterCol {df : DF} {c : String} {p : Option String → Bool}
    {r : List (Option String)} (h : r ∈ (filterCol df c p).rows) :
    r ∈ df.rows ∧ p (getO r (idxOf c df.cols)) = true := by
  have h' : r ∈ df.rows.filter (fun r => p (getO r (idxOf c df.cols))) := h
  rcases List.mem_filter.mp h' with ⟨h1, h2⟩
  exact ⟨h1, h2⟩

theorem mem_mapCol {df : DF} {c : String} {f : String → String}
    {r : List (Option String)} (h : r ∈ (mapCol df c f).rows) :
    ∃ r0, r0 ∈ df.rows ∧ r = mapCell (idxOf c df.cols) f r0 := by
  rcases List.mem_map.mp h with ⟨r0, h0, he⟩
  exact ⟨r0, h0, he.symm⟩

theorem mem_dropna {df : DF} {r : List (Option String)}
    (h : r ∈ (dropnaNameImo df).rows) :
    r ∈ df.rows ∧ (getO r (idxOf "name" df.cols)).isSome = true ∧
      (getO r (idxOf "imoNumber" df.cols)).isSome = true := by
  have h' : r ∈ df.rows.filter (fun r =>
      (getO r (idxOf "name" df.cols)).isSome &&
      (getO r (idxOf "imoNumber" df.cols)).isSome) := h
  rcases List.mem_filter.mp h' with ⟨h1, h2⟩
  exact ⟨h1, Bool.and_eq_true_iff.mp h2⟩

theorem numericMask_some {v : Option String} (h : numericMask v = true) :
    ∃ s, v = some s ∧ pyIsnumeric s = true := by
  cases v with
  | none => exact absurd h (by simp [numericMask])
  | some s => exact ⟨s, rfl, by simpa [numericMask] using h⟩

/-! ## The shape of cleaned rows -/

theorem cleanPipeline_cols (d : DF) : (cleanPipeline d).cols = d.cols := rfl

theorem cleanPipeline_nodup (d : DF) : (cleanPipeline d).rows.Nodup :=
  dedupKeepFirst_nodup _

/-- Every row surviving `cleanPipeline` carries a folded, nonempty name
and a zero-padded numeric IMO number. -/
theorem cleanPipeline_cells {d : DF}
    (hni : idxOf "name" d.cols ≠ idxOf "imoNumber" d.cols)
    {r : List (Option String)} (hr : r ∈ (cleanPipeline d).rows) :
    ∃ x s, getO r (idxOf "name" d.cols) = some (cleanStr x) ∧ cleanStr x ≠ "" ∧
      getO r (idxOf "imoNumber" d.cols) = some (pyZfill s 7) ∧
      pyIsnumeric s = true := by
  have h8 : r ∈ (filterCol (filterCol (mapCol (filterCol (mapCol (mapCol
      (dropnaNameImo d) "name" cleanStr) "imoNumber" cleanStr) "imoNumber"
      numericMask) "imoNumber" (fun x => pyZfill x 7)) "name" nonemptyMask)
      "imoNumber" nonemptyMask).rows := dedupKeepFirst_sub _ r hr
  rcases mem_filterCol h8 with ⟨h7, hp8⟩
  rcases mem_filterCol h7 with ⟨h6, hp7⟩
  rcases mem_mapCol h6 with ⟨r5, h5, he6⟩
  rcases mem_filterCol h5 with ⟨h4, hp5⟩
  rcases mem_mapCol h4 with ⟨r4, h4b, he5⟩
  rcases mem_mapCol h4b with ⟨r3, h3, he4⟩
  rcases mem_dropna h3 with ⟨hrows, hsN, hsI⟩
  have hp7n : nonemptyMask (getO r (idxOf "name" d.cols)) = true := hp7
  have he6n : r = mapCell (idxOf "imoNumber" d.cols) (fun x => pyZfill x 7) r5 := he6
  have hp5n : numericMask (getO r5 (idxOf "imoNumber" d.cols)) = true := hp5
  have he5n : r5 = mapCell (idxOf "imoNumber" d.cols) cleanStr r4 := he5
  have he4n : r4 = mapCell (idxOf "name" d.cols) cleanStr r3 := he4
  have hsNn : (getO r3 (idxOf "name" d.cols)).isSome = true := hsN
  rcases numericMask_some hp5n with ⟨s, hs5, hnum⟩
  have hImo : getO r (idxOf "imoNumber" d.cols) = some (pyZfill s 7) := by
    rw [he6n, getO_mapCell_self, hs5]
    rfl
  rcases Option.isSome_iff_exists.mp hsNn with ⟨x, hx3⟩
  have hName : getO r (idxOf "name" d.cols) = some (cleanStr x) := by
    rw [he6n, getO_mapCell_ne _ r5 hni, he5n, getO_mapCell_ne _ r4 hni, he4n,
        getO_mapCell_self, hx3]
    rfl
  have hnem : cleanStr x ≠ "" := by
    intro e
    rw [hName, e] at hp7n
    simp [nonemptyMask] at hp7n
  exact ⟨x, s, hName, hnem, hImo, hnum⟩

/-! ## Identity of the pipeline steps on already-clean data -/

theorem map_eq_self {α : Type} {f : α → α} :
    ∀ {l : List α}, (∀ x ∈ l, f x = x) → l.map f = l
  | [], _ => rfl
  | a :: t, h => by
      rw [List.map_cons, h a (List.mem_cons_self a t),
        map_eq_self (fun x hx => h x (List.mem_cons_of_mem a hx))]

theorem filterCol_eq_self {df : DF} {c : String} {p : Option String → Bool}
    (h : ∀ r ∈ df.rows, p (getO r (idxOf c df.cols)) = true) :
    filterCol df c p = df := by
  unfold filterCol
  rw [List.filter_eq_self.mpr h]

theorem mapCol_eq_self {df : DF} {c : String} {f : String → String}
    (h : ∀ r ∈ df.rows, ∀ s, getO r (idxOf c df.cols) = some s → f s = s) :
    mapCol df c f = df := by
  unfold mapCol
  rw [map_eq_self (fun r hr => mapCell_eq_self f r _ (h r hr))]

theorem dropna_eq_self {df : DF}
    (h : ∀ r ∈ df.rows, (getO r (idxOf "name" df.cols)).isSome = true ∧
      (getO r (idxOf "imoNumber" df.cols)).isSome = true) :
    dropnaNameImo df = df := by
  unfold dropnaNameImo
  rw [List.filter_eq_self.mpr (fun r hr =>
    Bool.and_eq_true_iff.mpr ⟨(h r hr).1, (h r hr).2⟩)]

/-! ## Inversion of a successful clean_vessel_data call -/

theorem clean_ok_inv {df out : DF} (hne : df.isEmpty = false)
    (hok : clean_vessel_data df = .ok out) :
    uniqueLabels (addMissing (addMissing (renameImo df) "name") "imoNumber") = true ∧
    out = cleanPipeline (addMissing (addMissing (renameImo df) "name") "imoNumber") := by
  unfold clean_vessel_data at hok
  rw [if_neg (by rw [hne]; exact Bool.false_ne_true)] at hok
  cases hu : uniqueLabels (addMissing (addMissing (renameImo df) "name") "imoNumber") with
  | false =>
      rw [if_neg (by rw [hu]; exact Bool.false_ne_true)] at hok
      exact absurd hok (by simp)
  | true =>
      rw [if_pos hu] at hok
      exact ⟨rfl, (Except.ok.inj hok).symm⟩

theorem countImo_df2 (df : DF) :
    countLabel "imo"
      (addMissing (addMissing (renameImo df) "name") "imoNumber").cols = 0 := by
  rw [addMissing_count_ne _ (by decide), addMissing_count_ne _ (by decide),
    renameImo_count_imo]

theorem uniqueLabels_counts {d : DF} (hu : uniqueLabels d = true) :
    countLabel "name" d.cols = 1 ∧ countLabel "imoNumber" d.cols = 1 := by
  have := Bool.and_eq_true_iff.mp hu
  exact ⟨by simpa using this.1, by simpa using this.2⟩

theorem isEmpty_false_of {df : DF} (h1 : df.rows ≠ []) (h2 : df.cols ≠ []) :
    df.isEmpty = false := by
  unfold DF.isEmpty
  cases hr : df.rows with
  | nil => exact absurd hr h1
  | cons a t =>
      cases hc : df.cols with
      | nil => exact absurd hc h2
      | cons b u => rfl

/-- The pipeline written out (the `let` chain flattened). -/
theorem cleanPipeline_def (d : DF) :
    cleanPipeline d =
      { filterCol (filterCol (mapCol (filterCol (mapCol (mapCol (dropnaNameImo d)
          "name" cleanStr) "imoNumber" cleanStr) "imoNumber" numericMask)
          "imoNumber" (fun x => pyZfill x 7)) "name" nonemptyMask) "imoNumber"
          nonemptyMask with
        rows := dedupKeepFirst (filterCol (filterCol (mapCol (filterCol (mapCol
          (mapCol (dropnaNameImo d) "name" cleanStr) "imoNumber" cleanStr)
          "imoNumber" numericMask) "imoNumber" (fun x => pyZfill x 7)) "name"
          nonemptyMask) "imoNumber" nonemptyMask).rows } :=
  rfl

/-- A cleaned frame with unique labels, no `imo` column, at least one
row, and whitespace-stable names is a fixed point of
`clean_vessel_data`. -/
theorem clean_fixed_point {d : DF}
    (hcn : countLabel "name" d.cols = 1)
    (hci : countLabel "imoNumber" d.cols = 1)
    (hcimo : countLabel "imo" d.cols = 0)
    (hrows : (cleanPipeline d).rows ≠ [])
    (hstable : ∀ r ∈ (cleanPipeline d).rows, ∀ n,
      getO r (idxOf "name" d.cols) = some n → pyStrip n = n) :
    clean_vessel_data (cleanPipeline d) = .ok (cleanPipeline d) := by
  have hmN : "name" ∈ d.cols :=
    countLabel_pos_iff.mp (by rw [hcn]; exact Nat.one_pos)
  have hmI : "imoNumber" ∈ d.cols :=
    countLabel_pos_iff.mp (by rw [hci]; exact Nat.one_pos)
  have hni := idxOf_ne hmN hmI (by decide)
  have hA : dropnaNameImo (cleanPipeline d) = cleanPipeline d := by
    apply dropna_eq_self
    intro r hr
    rw [cleanPipeline_cols]
    rcases cleanPipeline_cells hni hr with ⟨x, s0, hN, hxne, hI, hnum⟩
    rw [hN, hI]
    exact ⟨rfl, rfl⟩
  have hB : mapCol (cleanPipeline d) "name" cleanStr = cleanPipeline d := by
    apply mapCol_eq_self
    intro r hr s hs
    rw [cleanPipeline_cols] at hs
    rcases cleanPipeline_cells hni hr with ⟨x, s0, hN, hxne, hI, hnum⟩
    have hsx : s = cleanStr x := Option.some.inj (hs.symm.trans hN)
    rw [hsx]
    exact cleanStr_idem_of_stripped (by rw [← hsx]; exact hstable r hr s hs)
  have hC : mapCol (cleanPipeline d) "imoNumber" cleanStr = cleanPipeline d := by
    apply mapCol_eq_self
    intro r hr s hs
    rw [cleanPipeline_cols] at hs
    rcases cleanPipeline_cells hni hr with ⟨x, s0, hN, hxne, hI, hnum⟩
    have hsx : s = pyZfill s0 7 := Option.some.inj (hs.symm.trans hI)
    rw [hsx]
    exact cleanStr_of_digits (pyZfill_digits hnum)
  have hD : filterCol (cleanPipeline d) "imoNumber" numericMask = cleanPipeline d := by
    apply filterCol_eq_self
    intro r hr
    rw [cleanPipeline_cols]
    rcases cleanPipeline_cells hni hr with ⟨x, s0, hN, hxne, hI, hnum⟩
    rw [hI]
    simp [numericMask, pyIsnumeric_zfill hnum]
  have hE : mapCol (cleanPipeline d) "imoNumber" (fun x => pyZfill x 7) =
      cleanPipeline d := by
    apply mapCol_eq_self
    intro r hr s hs
    rw [cleanPipeline_cols] at hs
    rcases cleanPipeline_cells hni hr with ⟨x, s0, hN, hxne, hI, hnum⟩
    have hsx : s = pyZfill s0 7 := Option.some.inj (hs.symm.trans hI)
    rw [hsx]
    exact pyZfill_idem s0 7
  have hF : filterCol (cleanPipeline d) "name" nonemptyMask = cleanPipeline d := by
    apply filterCol_eq_self
    intro r hr
    rw [cleanPipeline_cols]
    rcases cleanPipeline_cells hni hr with ⟨x, s0, hN, hxne, hI, hnum⟩
    rw [hN]
    simp [nonemptyMask, hxne]
  have hG : filterCol (cleanPipeline d) "imoNumber" nonemptyMask = cleanPipeline d := by
    apply filterCol_eq_self
    intro r hr
    rw [cleanPipeline_cols]
    rcases cleanPipeline_cells hni hr with ⟨x, s0, hN, hxne, hI, hnum⟩
    rw [hI]
    simp [nonemptyMask, pyIsnumeric_ne_empty (pyIsnumeric_zfill hnum)]
  have hColsNe : (cleanPipeline d).cols ≠ [] := by
    rw [cleanPipeline_cols]
    exact List.ne_nil_of_mem hmN
  have hEmp : (cleanPipeline d).isEmpty = false := isEmpty_false_of hrows hColsNe
  have hImoNot : "imo" ∉ (cleanPipeline d).cols := by
    rw [cleanPipeline_cols]
    intro hm
    have hpos := countLabel_pos_iff.mpr hm
    rw [hcimo] at hpos
    omega
  have hRen : renameImo (cleanPipeline d) = cleanPipeline d := by
    unfold renameImo
    rw [if_neg hImoNot]
  have hmN2 : "name" ∈ (cleanPipeline d).cols := by
    rw [cleanPipeline_cols]
    exact hmN
  have hmI2 : "imoNumber" ∈ (cleanPipeline d).cols := by
    rw [cleanPipeline_cols]
    exact hmI
  have hA1 : addMissing (cleanPipeline d) "name" = cleanPipeline d := by
    unfold addMissing
    rw [if_pos hmN2]
  have hA2 : addMissing (cleanPipeline d) "imoNumber" = cleanPipeline d := by
    unfold addMissing
    rw [if_pos hmI2]
  have hu2 : uniqueLabels (cleanPipeline d) = true := by
    unfold uniqueLabels
    rw [cleanPipeline_cols, hcn, hci]
    rfl
  have hFix : cleanPipeline (cleanPipeline d) = cleanPipeline d := by
    rw [cleanPipeline_def (cleanPipeline d), hA, hB, hC, hD, hE, hF, hG,
      dedupKeepFirst_eq_self (cleanPipeline_nodup d)]
  unfold clean_vessel_data
  rw [if_neg (by rw [hEmp]; exact Bool.false_ne_true)]
  rw [hRen, hA1, hA2, if_pos hu2, hFix]

/-! ## Claim theorems -/

/-- C1: when the response for `entity_0` has a first result, the vessel
loop flags the row as sanctioned, and the person/company check displays
"Match Found!", exactly when that result's `match` field is the boolean
`true` and its `score` is strictly greater than 0.7; otherwise the
entity is not flagged. -/
theorem c1_sanctioned_iff_match_and_score (rd : ApiResponse)
    (er : ApiEntityResponse) (bm : ApiResult) (rest : List ApiResult)
    (h1 : respGet rd.responses "entity_0" = some er)
    (h2 : er.results = some (bm :: rest)) :
    ((vessel_row_result (some rd)).is_sanctioned = true ↔
      (bm.matchField = some true ∧ (7 : ℚ)/10 < bm.score.getD 0)) ∧
    ((∃ ls, single_check_result (some rd) = some (.matchFound ls)) ↔
      (bm.matchField = some true ∧ (7 : ℚ)/10 < bm.score.getD 0)) := by
  have hm : matchIsSanctioned bm = true ↔
      (bm.matchField = some true ∧ (7 : ℚ)/10 < bm.score.getD 0) := by
    simp [matchIsSanctioned]
  constructor
  · rw [← hm]
    cases hs : matchIsSanctioned bm <;>
      by_cases hd : matchIsDetained bm = true <;>
      simp [vessel_row_result, h1, h2, hs, hd, vesselRowInit]
  · cases hs : matchIsSanctioned bm
    · have hv : single_check_result (some rd) = some .noMatch := by
        simp [single_check_result, h1, h2, hs]
      rw [hv, ← hm, hs]
      simp
    · have hv : single_check_result (some rd) = some (.matchFound
          (String.intercalate ", " (bm.datasets.getD ["N/A"]))) := by
        simp [single_check_result, h1, h2, hs]
      rw [hv, ← hm, hs]
      simp

/-- Witness for C1 at a concrete matching response (match `true`,
score 0.8). -/
theorem c1_sanctioned_iff_match_and_score_witness :
    ((vessel_row_result (some ⟨[("entity_0", ⟨some [⟨some true, some ((4 : ℚ)/5),
        some ["us_list"], some "Q1", none⟩]⟩)]⟩)).is_sanctioned = true ↔
      ((⟨some true, some ((4 : ℚ)/5), some ["us_list"], some "Q1", none⟩ :
          ApiResult).matchField = some true ∧
        (7 : ℚ)/10 < (⟨some true, some ((4 : ℚ)/5), some ["us_list"], some "Q1",
          none⟩ : ApiResult).score.getD 0)) ∧
    ((∃ ls, single_check_result (some ⟨[("entity_0", ⟨some [⟨some true,
        some ((4 : ℚ)/5), some ["us_list"], some "Q1", none⟩]⟩)]⟩) =
          some (.matchFound ls)) ↔
      ((⟨some true, some ((4 : ℚ)/5), some ["us_list"], some "Q1", none⟩ :
          ApiResult).matchField = some true ∧
        (7 : ℚ)/10 < (⟨some true, some ((4 : ℚ)/5), some ["us_list"], some "Q1",
          none⟩ : ApiResult).score.getD 0)) :=
  c1_sanctioned_iff_match_and_score _ _ _ [] rfl rfl

/-- C6: on an HTTP failure (4xx/5xx raised by `raise_for_status`, or a
network-level request error), `check_sanctions_single` catches the
exception, shows at least one error message, returns `None`, and issued
exactly one POST attempt. -/
theorem c6_http_failure_one_post_none (api_key : String)
    (kvs : List (String × JValue)) (net : HttpOutcome ApiResponse)
    (h : net.isFailure = true) :
    (check_sanctions_single api_key (.dict kvs) net).result = none ∧
    (check_sanctions_single api_key (.dict kvs) net).posts = 1 ∧
    (check_sanctions_single api_key (.dict kvs) net).errors ≠ [] := by
  cases net with
  | success body => simp [HttpOutcome.isFailure] at h
  | httpError status msg =>
      exact ⟨rfl, rfl, by simp [check_sanctions_single]⟩
  | requestError msg =>
      exact ⟨rfl, rfl, by simp [check_sanctions_single]⟩

/-- Witness for C6 at a concrete 500 error. -/
theorem c6_http_failure_one_post_none_witness :
    (check_sanctions_single "k" (.dict [("name", .str "V")])
        (.httpError 500 "Server Error" : HttpOutcome ApiResponse)).result = none ∧
    (check_sanctions_single "k" (.dict [("name", .str "V")])
        (.httpError 500 "Server Error" : HttpOutcome ApiResponse)).posts = 1 ∧
    (check_sanctions_single "k" (.dict [("name", .str "V")])
        (.httpError 500 "Server Error" : HttpOutcome ApiResponse)).errors ≠ [] :=
  c6_http_failure_one_post_none "k" [("name", .str "V")]
    (.httpError 500 "Server Error") rfl

/-- C7: for every dict entity the POSTed JSON body is exactly
`queries.entity_0` with the entity's schema (default `"Thing"`) and
properties (default `{}`), under an `ApiKey` authorization header. -/
theorem c7_payload_shape_and_header {α : Type} (api_key : String)
    (kvs : List (String × JValue)) (net : HttpOutcome α) :
    (check_sanctions_single api_key (.dict kvs) net).payload =
      some (.obj [("queries", .obj [("entity_0", .obj
        [("schema", (dictGet kvs "schema").getD (.str "Thing")),
         ("properties", (dictGet kvs "properties").getD (.obj []))])])]) ∧
    ("Authorization", "ApiKey " ++ api_key) ∈
      (check_sanctions_single api_key (.dict kvs) net).headers := by
  cases net <;> exact ⟨rfl, List.mem_cons_self _ _⟩

/-- C8 counterexample: the person query carries no `passportNumber` and
the company query no `registrationNumber`; both send only the name. -/
theorem c8_counterexample_no_identifier_fields :
    dictGet (queryProperties (person_api_query "John Smith")) "passportNumber" =
      none ∧
    dictGet (queryProperties (company_api_query "Acme Corp")) "registrationNumber" =
      none :=
  ⟨rfl, rfl⟩

/-- C8 amended: a Vessel query's properties carry `imoNumber`, while the
Person and Company queries carry only the entered `name` (no
`passportNumber` / `registrationNumber`). -/
theorem c8_amended_query_fields (imo nm cn : String) :
    dictGet (queryProperties (vessel_api_query imo)) "imoNumber" =
      some (.arr [.str imo]) ∧
    queryProperties (person_api_query nm) = [("name", .arr [.str nm])] ∧
    queryProperties (company_api_query cn) = [("name", .arr [.str cn])] :=
  ⟨rfl, rfl, rfl⟩

/-- C10: a non-dict entity makes `check_sanctions_single` return `None`
without issuing any HTTP request. -/
theorem c10_nondict_none_no_request {α : Type} (api_key text : String)
    (net : HttpOutcome α) :
    (check_sanctions_single api_key (.other text) net).result = none ∧
    (check_sanctions_single api_key (.other text) net).posts = 0 :=
  ⟨rfl, rfl⟩

/-- C9: an empty input DataFrame yields an empty frame with columns
exactly `['name', 'imo']`, while every successful clean of a non-empty
input has an `imoNumber` column and no `imo` column, hence a different
column schema. -/
theorem c9_empty_vs_nonempty_schema :
    (∀ df : DF, df.isEmpty = true → clean_vessel_data df = .ok ⟨["name", "imo"], []⟩) ∧
    (∀ df out : DF, df.isEmpty = false → clean_vessel_data df = .ok out →
      "imoNumber" ∈ out.cols ∧ "imo" ∉ out.cols ∧ out.cols ≠ ["name", "imo"]) := by
  constructor
  · intro df h
    unfold clean_vessel_data
    rw [if_pos h]
  · intro df out hne hok
    rcases clean_ok_inv hne hok with ⟨hu, ho⟩
    rcases uniqueLabels_counts hu with ⟨hcn, hci⟩
    have hmem : "imoNumber" ∈ out.cols := by
      rw [ho, cleanPipeline_cols]
      exact countLabel_pos_iff.mp (by omega)
    have hnimo : "imo" ∉ out.cols := by
      rw [ho, cleanPipeline_cols]
      intro hm
      have hpos := countLabel_pos_iff.mpr hm
      rw [countImo_df2] at hpos
      omega
    refine ⟨hmem, hnimo, ?_⟩
    intro he
    rw [he] at hmem
    simp at hmem

/-- Witness for C9: an empty frame, and the concrete non-empty input
`[("A", "1")]` whose output schema is `['name', 'imoNumber']`. -/
theorem c9_empty_vs_nonempty_schema_witness :
    clean_vessel_data ⟨["name", "imo"], []⟩ = .ok ⟨["name", "imo"], []⟩ ∧
    ("imoNumber" ∈ (⟨["name", "imoNumber"], [[some "A", some "0000001"]]⟩ : DF).cols ∧
      "imo" ∉ (⟨["name", "imoNumber"], [[some "A", some "0000001"]]⟩ : DF).cols ∧
      (⟨["name", "imoNumber"], [[some "A", some "0000001"]]⟩ : DF).cols ≠
        ["name", "imo"]) :=
  ⟨c9_empty_vs_nonempty_schema.1 ⟨["name", "imo"], []⟩ rfl,
   c9_empty_vs_nonempty_schema.2 ⟨["name", "imo"], [[some "A", some "1"]]⟩
     ⟨["name", "imoNumber"], [[some "A", some "0000001"]]⟩ rfl rfl⟩

/-- C3 counterexample: an 8-digit numeric IMO number survives cleaning
unchanged — `zfill` never truncates, so the output is not "exactly 7
digits". -/
theorem c3_counterexample_eight_digit_imo :
    clean_vessel_data ⟨["name", "imo"], [[some "A", some "12345678"]]⟩ =
      .ok ⟨["name", "imoNumber"], [[some "A", some "12345678"]]⟩ ∧
    ("12345678" : String).length ≠ 7 :=
  ⟨rfl, by decide⟩

/-- C3 amended: every `imoNumber` in the cleaned output is numeric and
at least 7 digits (zero-padded to 7 when shorter, never truncated), rows
with a non-numeric `imoNumber` having been dropped; the add-vessel form
likewise only accepts a numeric IMO of at least 7 digits. -/
theorem c3_amended_imo_numeric_min_7 :
    (∀ df out : DF, clean_vessel_data df = .ok out →
      ∀ r ∈ out.rows, ∀ v, getO r (idxOf "imoNumber" out.cols) = some v →
        pyIsnumeric v = true ∧ 7 ≤ v.length) ∧
    (∀ (store : List Vessel) (nn ni : String) (l : List Vessel),
      add_vessel store nn ni = .added l →
      ∃ w, w ∈ l ∧ w.name = nn ∧ pyIsnumeric w.imoNumber = true ∧
        7 ≤ w.imoNumber.length) := by
  constructor
  · intro df out hok r hr v hv
    by_cases hne : df.isEmpty = true
    · unfold clean_vessel_data at hok
      rw [if_pos hne] at hok
      rw [← Except.ok.inj hok] at hr
      exact absurd hr (List.not_mem_nil r)
    · have hne' : df.isEmpty = false := by
        revert hne
        cases df.isEmpty <;> simp
      rcases clean_ok_inv hne' hok with ⟨hu, ho⟩
      rcases uniqueLabels_counts hu with ⟨hcn, hci⟩
      have hmN : "name" ∈
          (addMissing (addMissing (renameImo df) "name") "imoNumber").cols :=
        countLabel_pos_iff.mp (by rw [hcn]; exact Nat.one_pos)
      have hmI : "imoNumber" ∈
          (addMissing (addMissing (renameImo df) "name") "imoNumber").cols :=
        countLabel_pos_iff.mp (by rw [hci]; exact Nat.one_pos)
      have hni := idxOf_ne hmN hmI (by decide)
      subst ho
      rw [cleanPipeline_cols] at hv
      rcases cleanPipeline_cells hni hr with ⟨x, s, hN, hxne, hI, hnum⟩
      rw [hI] at hv
      rw [← Option.some.inj hv]
      exact ⟨pyIsnumeric_zfill hnum, pyZfill_length s 7⟩
  · intro store nn ni l hadd
    unfold add_vessel at hadd
    by_cases h1 : (nn = "" || ni = "") = true
    · rw [if_pos h1] at hadd
      exact absurd hadd (by simp)
    · rw [if_neg h1] at hadd
      by_cases h2 : (!pyIsnumeric (pyZfill (pyStrip ni) 7)) = true
      · rw [if_pos h2] at hadd
        exact absurd hadd (by simp)
      · rw [if_neg h2] at hadd
        have hl : l = keepLastByImo (store ++ [⟨nn, pyZfill (pyStrip ni) 7⟩]) :=
          (AddVesselOut.added.inj hadd).symm
        refine ⟨⟨nn, pyZfill (pyStrip ni) 7⟩, ?_, rfl, ?_, pyZfill_length _ 7⟩
        · rw [hl]
          exact keepLastByImo_last_mem _ store
        · revert h2
          cases pyIsnumeric (pyZfill (pyStrip ni) 7) <;> simp

/-- Witness for C3: the 5-digit IMO `"12345"` comes out as the 7-digit
`"0012345"`, and the add form accepts `"12345678"` as entered. -/
theorem c3_amended_imo_numeric_min_7_witness :
    (pyIsnumeric "0012345" = true ∧ 7 ≤ ("0012345" : String).length) ∧
    (∃ w, w ∈ [(⟨"A", "12345678"⟩ : Vessel)] ∧ w.name = "A" ∧
      pyIsnumeric w.imoNumber = true ∧ 7 ≤ w.imoNumber.length) :=
  ⟨c3_amended_imo_numeric_min_7.1 ⟨["name", "imo"], [[some "A", some "12345"]]⟩
      ⟨["name", "imoNumber"], [[some "A", some "0012345"]]⟩ rfl
      [some "A", some "0012345"] (List.mem_singleton.mpr rfl) "0012345" rfl,
   c3_amended_imo_numeric_min_7.2 [] "A" "12345678" [⟨"A", "12345678"⟩] rfl⟩

/-- C4 counterexample: two rows sharing the name `"ARGO"` but with
different IMO numbers both survive cleaning — records are not
deduplicated by name. -/
theorem c4_counterexample_same_name_kept :
    clean_vessel_data
        ⟨["name", "imo"], [[some "ARGO", some "1111111"], [some "ARGO", some "2222222"]]⟩ =
      .ok ⟨["name", "imoNumber"],
        [[some "ARGO", some "1111111"], [some "ARGO", some "2222222"]]⟩ ∧
    getO [some "ARGO", some "1111111"] (idxOf "name" ["name", "imoNumber"]) =
      getO [some "ARGO", some "2222222"] (idxOf "name" ["name", "imoNumber"]) :=
  ⟨rfl, rfl⟩

/-- C4 amended: `clean_vessel_data` collapses only fully identical rows
(its output rows are pairwise distinct), and the add-vessel form
collapses rows by `imoNumber` keeping the last; rows sharing only a name
are kept. -/
theorem c4_amended_dedup_full_row_or_imo :
    (∀ df out : DF, clean_vessel_data df = .ok out → out.rows.Nodup) ∧
    (∀ (store : List Vessel) (nn ni : String) (l : List Vessel),
      add_vessel store nn ni = .added l → (l.map Vessel.imoNumber).Nodup) := by
  constructor
  · intro df out hok
    by_cases hne : df.isEmpty = true
    · unfold clean_vessel_data at hok
      rw [if_pos hne] at hok
      rw [← Except.ok.inj hok]
      exact List.nodup_nil
    · have hne' : df.isEmpty = false := by
        revert hne
        cases df.isEmpty <;> simp
      rcases clean_ok_inv hne' hok with ⟨hu, ho⟩
      rw [ho]
      exact cleanPipeline_nodup _
  · intro store nn ni l hadd
    unfold add_vessel at hadd
    by_cases h1 : (nn = "" || ni = "") = true
    · rw [if_pos h1] at hadd
      exact absurd hadd (by simp)
    · rw [if_neg h1] at hadd
      by_cases h2 : (!pyIsnumeric (pyZfill (pyStrip ni) 7)) = true
      · rw [if_pos h2] at hadd
        exact absurd hadd (by simp)
      · rw [if_neg h2] at hadd
        rw [(AddVesselOut.added.inj hadd).symm]
        exact keepLastByImo_imo_nodup _

/-- Witness for C4 at concrete inputs for both parts. -/
theorem c4_amended_dedup_full_row_or_imo_witness :
    ((⟨["name", "imoNumber"], [[some "A", some "0000001"]]⟩ : DF)).rows.Nodup ∧
    (([(⟨"B", "0000001"⟩ : Vessel)].map Vessel.imoNumber)).Nodup :=
  ⟨c4_amended_dedup_full_row_or_imo.1 ⟨["name", "imo"], [[some "A", some "1"]]⟩
      ⟨["name", "imoNumber"], [[some "A", some "0000001"]]⟩ rfl,
   c4_amended_dedup_full_row_or_imo.2 [⟨"A", "0000001"⟩] "B" "1"
      [⟨"B", "0000001"⟩] rfl⟩

/-- C5 counterexample: a frame carrying both an `imo` and an `imoNumber`
column makes the rename duplicate the `imoNumber` label, and the
cleaning call raises instead of returning. -/
theorem c5_counterexample_duplicate_label_raises :
    clean_vessel_data ⟨["name", "imo", "imoNumber"], [[some "a", some "1", some "2"]]⟩ =
      .error "duplicated column label" :=
  rfl

/-- C5 amended: for every input frame without duplicated `name` /
`imoNumber` labels (in particular, not both an `imo` and an `imoNumber`
column), `clean_vessel_data` returns normally, malformed rows are
filtered out, and every remaining row has a non-empty name and a numeric
IMO number. -/
theorem c5_amended_total_without_dup_labels (df : DF)
    (hn : countLabel "name" df.cols ≤ 1)
    (hi : countLabel "imoNumber" df.cols + countLabel "imo" df.cols ≤ 1) :
    ∃ out, clean_vessel_data df = .ok out ∧
      ∀ r ∈ out.rows, ∃ n v,
        getO r (idxOf "name" out.cols) = some n ∧ n ≠ "" ∧
        getO r (idxOf "imoNumber" out.cols) = some v ∧ pyIsnumeric v = true := by
  by_cases hne : df.isEmpty = true
  · refine ⟨⟨["name", "imo"], []⟩, ?_, ?_⟩
    · unfold clean_vessel_data
      rw [if_pos hne]
    · intro r hr
      exact absurd hr (List.not_mem_nil r)
  · have hne' : df.isEmpty = false := by
      revert hne
      cases df.isEmpty <;> simp
    have hcn : countLabel "name"
        (addMissing (addMissing (renameImo df) "name") "imoNumber").cols = 1 := by
      rw [addMissing_count_ne _ (by decide)]
      apply addMissing_count_self
      rw [renameImo_count_name]
      exact hn
    have hci : countLabel "imoNumber"
        (addMissing (addMissing (renameImo df) "name") "imoNumber").cols = 1 := by
      apply addMissing_count_self
      rw [addMissing_count_ne _ (by decide), renameImo_count_imoN]
      exact hi
    have hu : uniqueLabels
        (addMissing (addMissing (renameImo df) "name") "imoNumber") = true := by
      unfold uniqueLabels
      rw [hcn, hci]
      rfl
    refine ⟨cleanPipeline (addMissing (addMissing (renameImo df) "name") "imoNumber"),
      ?_, ?_⟩
    · unfold clean_vessel_data
      rw [if_neg (by rw [hne']; exact Bool.false_ne_true), if_pos hu]
    · intro r hr
      have hmN : "name" ∈
          (addMissing (addMissing (renameImo df) "name") "imoNumber").cols :=
        countLabel_pos_iff.mp (by rw [hcn]; exact Nat.one_pos)
      have hmI : "imoNumber" ∈
          (addMissing (addMissing (renameImo df) "name") "imoNumber").cols :=
        countLabel_pos_iff.mp (by rw [hci]; exact Nat.one_pos)
      have hni := idxOf_ne hmN hmI (by decide)
      rw [cleanPipeline_cols]
      rcases cleanPipeline_cells hni hr with ⟨x, s, hN, hxne, hI, hnum⟩
      exact ⟨cleanStr x, pyZfill s 7, hN, hxne, hI, pyIsnumeric_zfill hnum⟩

/-- C2 counterexample: a non-empty input whose rows are all dropped
cleans to an empty frame with columns `['name', 'imoNumber']`, but
re-cleaning that output takes the empty-input branch and returns the
different schema `['name', 'imo']` — so clean ∘ clean ≠ clean. -/
theorem c2_counterexample_empty_output_schema :
    clean_vessel_data ⟨["name", "imo"], [[some "x", some "abc"]]⟩ =
      .ok ⟨["name", "imoNumber"], []⟩ ∧
    clean_vessel_data ⟨["name", "imoNumber"], []⟩ = .ok ⟨["name", "imo"], []⟩ ∧
    (⟨["name", "imo"], []⟩ : DF) ≠ (⟨["name", "imoNumber"], []⟩ : DF) :=
  ⟨rfl, rfl, by decide⟩

/-- C2 amended: `clean_vessel_data` is idempotent on every input whose
cleaned output still has at least one row and whose cleaned names carry
no residual edge whitespace (whitespace that the Unicode fold can expose
after stripping); re-cleaning such an output returns it unchanged.  (It
is not idempotent when the output is empty — the schema reverts to
`['name', 'imo']` — nor when a name keeps foldable edge whitespace.) -/
theorem c2_amended_idempotent_on_stable_output (df out : DF)
    (hok : clean_vessel_data df = .ok out) (hrows : out.rows ≠ [])
    (hstable : ∀ r ∈ out.rows, ∀ n,
      getO r (idxOf "name" out.cols) = some n → pyStrip n = n) :
    clean_vessel_data out = .ok out := by
  by_cases hne : df.isEmpty = true
  · unfold clean_vessel_data at hok
    rw [if_pos hne] at hok
    rw [← Except.ok.inj hok] at hrows
    exact absurd rfl hrows
  · have hne' : df.isEmpty = false := by
      revert hne
      cases df.isEmpty <;> simp
    rcases clean_ok_inv hne' hok with ⟨hu, ho⟩
    rcases uniqueLabels_counts hu with ⟨hcn, hci⟩
    have hcimo := countImo_df2 df
    subst ho
    rw [cleanPipeline_cols] at hstable
    exact clean_fixed_point hcn hci hcimo hrows hstable

/-- Witness for C2: re-cleaning the cleaned `[("ARGO MARIS", "9041643")]`
returns it unchanged. -/
theorem c2_amended_idempotent_on_stable_output_witness :
    clean_vessel_data ⟨["name", "imoNumber"], [[some "ARGO MARIS", some "9041643"]]⟩ =
      .ok ⟨["name", "imoNumber"], [[some "ARGO MARIS", some "9041643"]]⟩ :=
  c2_amended_idempotent_on_stable_output
    ⟨["name", "imo"], [[some "ARGO MARIS", some "9041643"]]⟩
    ⟨["name", "imoNumber"], [[some "ARGO MARIS", some "9041643"]]⟩
    rfl (by decide)
    (by
      intro r hr n hn
      have hr2 : r = [some "ARGO MARIS", some "9041643"] := by simpa using hr
      subst hr2
      have hn2 : some "ARGO MARIS" = some n := hn
      rw [← Option.some.inj hn2]
      decide)

/-- Witness for C5 at the concrete frame `[("A", "12")]`. -/
theorem c5_amended_total_without_dup_labels_witness :
    ∃ out, clean_vessel_data ⟨["name", "imo"], [[some "A", some "12"]]⟩ = .ok out ∧
      ∀ r ∈ out.rows, ∃ n v,
        getO r (idxOf "name" out.cols) = some n ∧ n ≠ "" ∧
        getO r (idxOf "imoNumber" out.cols) = some v ∧ pyIsnumeric v = true :=
  c5_amended_total_without_dup_labels ⟨["name", "imo"], [[some "A", some "12"]]⟩
    (by decide) (by decide)


end Posiden
